import Mathlib

/-!
Shallow embedding of the connection-routing and curve-generation subsystem of
src/asset_setups/integration_v2/diagram3d.js: the ConnectionPointCalculator,
the BezierCurveGenerator and the ConnectionManager. JavaScript numbers are
modelled as real numbers; Math.sqrt becomes Real.sqrt. The nondeterministic
inputs of the original (Date.now / Math.random id generation, random particle
progress and speed) are threaded in as explicit parameters.
-/

namespace Diagram3d

noncomputable section

/-- A point or vector in 3-space, modelling THREE.Vector3 with real coordinates. -/
@[ext]
structure Vec3 where
  x : ℝ
  y : ℝ
  z : ℝ

/-- A scene element as the calculator reads it: the userData discriminators
(`type`, `isDatabaseComponent`, `hasPlataform` — spelling as in the source),
the world position, the box geometry parameters (width/height/depth, read for
platforms), and the geometry bounding box (read for standalone cubes). -/
structure Element where
  type : String
  isDatabaseComponent : Bool
  hasPlataform : Bool
  position : Vec3
  width : ℝ
  height : ℝ
  depth : ℝ
  bbMin : Vec3
  bbMax : Vec3

/-- ConnectionPointCalculator.getPlatformConnectionPoint (diagram3d.js:722-750). -/
def getPlatformConnectionPoint (platform targetElement : Element) : Vec3 :=
  let platformPos := platform.position
  let targetPos := targetElement.position
  let width := platform.width
  let depth := platform.depth
  let height := platform.height
  let dx := targetPos.x - platformPos.x
  let dz := targetPos.z - platformPos.z
  let absX := |dx|
  let absZ := |dz|
  let connectionX :=
    if absX > absZ then platformPos.x + (if dx > 0 then width / 2 else -(width / 2))
    else platformPos.x + max (-(width / 2)) (min (width / 2) dx)
  let connectionZ :=
    if absX > absZ then platformPos.z + max (-(depth / 2)) (min (depth / 2) dz)
    else platformPos.z + (if dz > 0 then depth / 2 else -(depth / 2))
  let connectionY := platformPos.y + height / 2 + 0.1
  ⟨connectionX, connectionY, connectionZ⟩

/-- ConnectionPointCalculator.getStandaloneCubeConnectionPoint
(diagram3d.js:797-845): uses the geometry bounding box for exact half extents,
snaps the two non-dominant coordinates to the exact center. -/
def getStandaloneCubeConnectionPoint (cube targetElement : Element) : Vec3 :=
  let cubePos := cube.position
  let targetPos := targetElement.position
  let actualWidth := cube.bbMax.x - cube.bbMin.x
  let actualHeight := cube.bbMax.y - cube.bbMin.y
  let actualDepth := cube.bbMax.z - cube.bbMin.z
  let halfWidth := actualWidth / 2
  let halfHeight := actualHeight / 2
  let halfDepth := actualDepth / 2
  let dx := targetPos.x - cubePos.x
  let dy := targetPos.y - cubePos.y
  let dz := targetPos.z - cubePos.z
  let absX := |dx|
  let absY := |dy|
  let absZ := |dz|
  if absX ≥ absY ∧ absX ≥ absZ then
    ⟨cubePos.x + (if dx > 0 then halfWidth else -halfWidth), cubePos.y, cubePos.z⟩
  else if absY ≥ absX ∧ absY ≥ absZ then
    ⟨cubePos.x, cubePos.y + (if dy > 0 then halfHeight else -halfHeight), cubePos.z⟩
  else
    ⟨cubePos.x, cubePos.y, cubePos.z + (if dz > 0 then halfDepth else -halfDepth)⟩

/-- ConnectionPointCalculator.getCylinderConnectionPoint (diagram3d.js:847-875):
hard-coded radius 0.9 and height 1.8. -/
def getCylinderConnectionPoint (cylinder targetElement : Element) : Vec3 :=
  let cylinderPos := cylinder.position
  let targetPos := targetElement.position
  let radius : ℝ := 0.9
  let height : ℝ := 1.8
  let dx := targetPos.x - cylinderPos.x
  let dz := targetPos.z - cylinderPos.z
  let dy := targetPos.y - cylinderPos.y
  let horizontalDistance := Real.sqrt (dx * dx + dz * dz)
  if |dy| > horizontalDistance then
    ⟨cylinderPos.x, cylinderPos.y + (if dy > 0 then height / 2 else -(height / 2)), cylinderPos.z⟩
  else if horizontalDistance > 0 then
    ⟨cylinderPos.x + dx / horizontalDistance * radius, cylinderPos.y,
     cylinderPos.z + dz / horizontalDistance * radius⟩
  else
    cylinderPos

/-- ConnectionPointCalculator.getComponentConnectionPoint (diagram3d.js:752-791):
dispatches to the cylinder resolver for database components, to the standalone
cube resolver when there is no platform, and otherwise uses a fixed nominal
size 1.5 box offset from the component center. -/
def getComponentConnectionPoint (component targetElement : Element) : Vec3 :=
  if component.isDatabaseComponent then getCylinderConnectionPoint component targetElement
  else if component.hasPlataform = false then
    getStandaloneCubeConnectionPoint component targetElement
  else
    let componentPos := component.position
    let targetPos := targetElement.position
    let halfSize : ℝ := 1.5 / 2
    let dx := targetPos.x - componentPos.x
    let dy := targetPos.y - componentPos.y
    let dz := targetPos.z - componentPos.z
    let absX := |dx|
    let absY := |dy|
    let absZ := |dz|
    if absX ≥ absY ∧ absX ≥ absZ then
      ⟨componentPos.x + (if dx > 0 then halfSize else -halfSize), componentPos.y, componentPos.z⟩
    else if absY ≥ absX ∧ absY ≥ absZ then
      ⟨componentPos.x, componentPos.y + (if dy > 0 then halfSize else -halfSize), componentPos.z⟩
    else
      ⟨componentPos.x, componentPos.y, componentPos.z + (if dz > 0 then halfSize else -halfSize)⟩

/-- ConnectionPointCalculator.getNodeConnectionPoint (diagram3d.js:877-879). -/
def getNodeConnectionPoint (node targetElement : Element) : Vec3 :=
  node.position

/-- ConnectionPointCalculator.getDefaultConnectionPoint (diagram3d.js:881-883). -/
def getDefaultConnectionPoint (element targetElement : Element) : Vec3 :=
  element.position

/-- ConnectionPointCalculator.getConnectionPoint (diagram3d.js:707-720):
dispatch on userData.type. -/
def getConnectionPoint (element targetElement : Element) : Vec3 :=
  match element.type with
  | "platform" => getPlatformConnectionPoint element targetElement
  | "component" => getComponentConnectionPoint element targetElement
  | "node" => getNodeConnectionPoint element targetElement
  | _ => getDefaultConnectionPoint element targetElement

/-- An immutable cubic Bézier curve, modelling THREE.CubicBezierCurve3:
four control points v0 (start), v1, v2, v3 (end). -/
structure CubicBezierCurve3 where
  v0 : Vec3
  v1 : Vec3
  v2 : Vec3
  v3 : Vec3

/-- THREE.CubicBezierCurve3.getPoint: cubic Bernstein evaluation
(three.js Interpolations.CubicBezier applied componentwise). -/
def CubicBezierCurve3.getPoint (c : CubicBezierCurve3) (t : ℝ) : Vec3 :=
  let k := 1 - t
  ⟨k ^ 3 * c.v0.x + 3 * k ^ 2 * t * c.v1.x + 3 * k * t ^ 2 * c.v2.x + t ^ 3 * c.v3.x,
   k ^ 3 * c.v0.y + 3 * k ^ 2 * t * c.v1.y + 3 * k * t ^ 2 * c.v2.y + t ^ 3 * c.v3.y,
   k ^ 3 * c.v0.z + 3 * k ^ 2 * t * c.v1.z + 3 * k * t ^ 2 * c.v2.z + t ^ 3 * c.v3.z⟩

/-- The curve style options read by BezierCurveGenerator (all keys present;
the manager merges its defaults into the per-connection options before use). -/
structure CurveOptions where
  curvature : ℝ
  verticalOffset : ℝ
  horizontalOffset : ℝ
  curveType : String
  showArrows : Bool

/-- THREE.Vector3.distanceTo. -/
def distanceTo (a b : Vec3) : ℝ :=
  Real.sqrt ((b.x - a.x) ^ 2 + (b.y - a.y) ^ 2 + (b.z - a.z) ^ 2)

/-- THREE.Vector3.normalize: divideScalar(this.length() || 1), so the zero
vector stays the zero vector. -/
def normalize (v : Vec3) : Vec3 :=
  let len := Real.sqrt (v.x ^ 2 + v.y ^ 2 + v.z ^ 2)
  let d := if len = 0 then 1 else len
  ⟨v.x / d, v.y / d, v.z / d⟩

/-- BezierCurveGenerator.createArchitecturalCurve (diagram3d.js:908-939). -/
def createArchitecturalCurve (startPoint endPoint : Vec3) (options : CurveOptions) :
    CubicBezierCurve3 :=
  let verticalOffset := options.verticalOffset
  let heightDiff := |endPoint.y - startPoint.y|
  let curveHeight := max verticalOffset (heightDiff * 0.3)
  let midPoint : Vec3 :=
    ⟨(startPoint.x + endPoint.x) / 2, max startPoint.y endPoint.y + curveHeight,
     (startPoint.z + endPoint.z) / 2⟩
  let controlPoint1 : Vec3 :=
    ⟨startPoint.x + (midPoint.x - startPoint.x) * 0.6, startPoint.y + curveHeight * 0.7,
     startPoint.z + (midPoint.z - startPoint.z) * 0.6⟩
  let controlPoint2 : Vec3 :=
    ⟨endPoint.x + (midPoint.x - endPoint.x) * 0.6, endPoint.y + curveHeight * 0.7,
     endPoint.z + (midPoint.z - endPoint.z) * 0.6⟩
  ⟨startPoint, controlPoint1, controlPoint2, endPoint⟩

/-- BezierCurveGenerator.calculateControlPoint1 (diagram3d.js:984-994). -/
def calculateControlPoint1 (s e : Vec3) (verticalOffset horizontalOffset distance : ℝ) : Vec3 :=
  let direction := normalize ⟨e.x - s.x, e.y - s.y, e.z - s.z⟩
  let perpendicular : Vec3 := ⟨-direction.z, 0, direction.x⟩
  ⟨s.x + direction.x * (distance * 0.3) + perpendicular.x * horizontalOffset,
   s.y + verticalOffset,
   s.z + direction.z * (distance * 0.3) + perpendicular.z * horizontalOffset⟩

/-- BezierCurveGenerator.calculateControlPoint2 (diagram3d.js:996-1006). -/
def calculateControlPoint2 (s e : Vec3) (verticalOffset horizontalOffset distance : ℝ) : Vec3 :=
  let direction := normalize ⟨s.x - e.x, s.y - e.y, s.z - e.z⟩
  let perpendicular : Vec3 := ⟨-direction.z, 0, direction.x⟩
  ⟨e.x + direction.x * (distance * 0.3) + perpendicular.x * horizontalOffset,
   e.y + verticalOffset,
   e.z + direction.z * (distance * 0.3) + perpendicular.z * horizontalOffset⟩

/-- BezierCurveGenerator.createSmoothCurve (diagram3d.js:941-959). -/
def createSmoothCurve (startPoint endPoint : Vec3) (options : CurveOptions) :
    CubicBezierCurve3 :=
  let distance := distanceTo startPoint endPoint
  let controlPoint1 :=
    calculateControlPoint1 startPoint endPoint options.verticalOffset options.horizontalOffset
      distance
  let controlPoint2 :=
    calculateControlPoint2 startPoint endPoint options.verticalOffset options.horizontalOffset
      distance
  ⟨startPoint, controlPoint1, controlPoint2, endPoint⟩

/-- BezierCurveGenerator.createSharpCurve (diagram3d.js:961-982). -/
def createSharpCurve (startPoint endPoint : Vec3) (options : CurveOptions) :
    CubicBezierCurve3 :=
  let verticalOffset := options.verticalOffset
  let controlPoint1 : Vec3 :=
    ⟨startPoint.x + (endPoint.x - startPoint.x) * 0.3, startPoint.y + verticalOffset,
     startPoint.z + (endPoint.z - startPoint.z) * 0.3⟩
  let controlPoint2 : Vec3 :=
    ⟨startPoint.x + (endPoint.x - startPoint.x) * 0.7, endPoint.y + verticalOffset,
     startPoint.z + (endPoint.z - startPoint.z) * 0.7⟩
  ⟨startPoint, controlPoint1, controlPoint2, endPoint⟩

/-- BezierCurveGenerator.createCurve (diagram3d.js:890-906): dispatch on
curveType; every unknown string falls to the architectural default. -/
def createCurve (startPoint endPoint : Vec3) (options : CurveOptions) : CubicBezierCurve3 :=
  match options.curveType with
  | "smooth" => createSmoothCurve startPoint endPoint options
  | "sharp" => createSharpCurve startPoint endPoint options
  | _ => createArchitecturalCurve startPoint endPoint options

/-- A child of the manager's connectionGroup: the userData tag written by
createCurveVisual / createArrow ({connectionId, type}). -/
structure Visual where
  connectionId : String
  objectType : String

/-- A flow particle's userData (diagram3d.js:1255-1262): owning connection id,
the curve it rides, progress and speed. The visual position/scale update is a
pure function of progress and is not tracked here. -/
structure Particle where
  connectionId : String
  curve : CubicBezierCurve3
  progress : ℝ
  speed : ℝ

/-- A stored connection record (diagram3d.js:1112-1118). -/
structure Connection where
  id : String
  fromElement : Element
  toElement : Element
  curve : CubicBezierCurve3
  options : CurveOptions

/-- The mutable state of ConnectionManager: the three parallel arrays plus the
connectionGroup children and the animationEnabled flag. -/
structure ConnectionManager where
  animationEnabled : Bool
  curves : List CubicBezierCurve3
  animationParticles : List Particle
  connections : List Connection
  connectionGroupChildren : List Visual

/-- ConnectionManager.addConnection (diagram3d.js:1105-1134). The generated id
(Date.now/Math.random based in the source) and the two Math.random() draws of
createAnimationParticle are passed in; options stands for the merged
{...this.options, ...options} bag. -/
def addConnection (m : ConnectionManager) (fromElement toElement : Element)
    (options : CurveOptions) (newId : String) (rnd1 rnd2 : ℝ) : ConnectionManager :=
  let fromPoint := getConnectionPoint fromElement toElement
  let toPoint := getConnectionPoint toElement fromElement
  let curve := createCurve fromPoint toPoint options
  { m with
    curves := m.curves ++ [curve]
    connections := m.connections ++ [⟨newId, fromElement, toElement, curve, options⟩]
    connectionGroupChildren :=
      m.connectionGroupChildren ++ [⟨newId, "curve"⟩] ++
        (if options.showArrows then [⟨newId, "arrow"⟩] else [])
    animationParticles :=
      m.animationParticles ++
        (if m.animationEnabled then [⟨newId, curve, rnd1, 0.008 + rnd2 * 0.012⟩] else []) }

/-- ConnectionManager.removeConnection (diagram3d.js:1268-1286): drops the
tagged visuals, the matching particles and the connection record; the curves
array is left untouched. -/
def removeConnection (m : ConnectionManager) (connectionId : String) : ConnectionManager :=
  { m with
    connectionGroupChildren :=
      m.connectionGroupChildren.filter (fun child => child.connectionId ≠ connectionId)
    animationParticles :=
      m.animationParticles.filter (fun p => p.connectionId ≠ connectionId)
    connections := m.connections.filter (fun conn => conn.id ≠ connectionId) }

/-- One animation step of a particle (diagram3d.js:1291-1296): add the speed,
and reset the progress to exactly 0 once it reaches 1. -/
def progressStep (speed p : ℝ) : ℝ :=
  let q := p + speed
  if q ≥ 1 then 0 else q

/-- The per-particle effect of updateAnimations: only the progress changes in
the tracked state (position/scale are recomputed from it for display). -/
def stepParticle (p : Particle) : Particle :=
  { p with progress := progressStep p.speed p.progress }

/-- ConnectionManager.updateAnimations (diagram3d.js:1288-1304): no-op when
animation is disabled, otherwise advances every particle. -/
def updateAnimations (m : ConnectionManager) : ConnectionManager :=
  if m.animationEnabled then
    { m with animationParticles := m.animationParticles.map stepParticle }
  else m

/-- ConnectionManager.toggleAnimation (diagram3d.js:1306-1322): flips the flag;
when enabling, walks curves by index and pairs each with connections[index]
(skipping indices past the end of connections, which is exactly a zip), pushing
a fresh particle per pair; when disabling, empties the particle list. rnd gives
the two Math.random() draws used for the particle at each index. -/
def toggleAnimation (m : ConnectionManager) (rnd : ℕ → ℝ × ℝ) : ConnectionManager :=
  if m.animationEnabled then
    { m with animationEnabled := false, animationParticles := [] }
  else
    { m with
      animationEnabled := true
      animationParticles :=
        m.animationParticles ++
          (m.curves.zip m.connections).enum.map
            (fun pr => ⟨pr.2.2.id, pr.2.1, (rnd pr.1).1, 0.008 + (rnd pr.1).2 * 0.012⟩) }

/-- ConnectionManager.clear (diagram3d.js:1329-1335). -/
def clear (m : ConnectionManager) : ConnectionManager :=
  { m with
    curves := []
    animationParticles := []
    connections := []
    connectionGroupChildren := [] }

/-- A call against the manager, for reasoning about call sequences. -/
inductive ManagerOp where
  | addOp (fromElement toElement : Element) (options : CurveOptions) (newId : String)
      (rnd1 rnd2 : ℝ)
  | removeOp (connectionId : String)

/-- Apply one call. -/
def applyOp (m : ConnectionManager) : ManagerOp → ConnectionManager
  | .addOp f t o i r1 r2 => addConnection m f t o i r1 r2
  | .removeOp i => removeConnection m i

/-- Apply a sequence of calls in order. -/
def applyOps (m : ConnectionManager) : List ManagerOp → ConnectionManager
  | [] => m
  | op :: rest => applyOps (applyOp m op) rest

/-- Number of addConnection calls in a sequence. -/
def countAdds : List ManagerOp → ℕ
  | [] => 0
  | .addOp _ _ _ _ _ _ :: rest => countAdds rest + 1
  | .removeOp _ :: rest => countAdds rest

/-- Cubic Bézier evaluation at t = 0 is the first control point. -/
lemma getPoint_zero (c : CubicBezierCurve3) : c.getPoint 0 = c.v0 := by
  unfold CubicBezierCurve3.getPoint
  ext <;> simp

/-- Cubic Bézier evaluation at t = 1 is the last control point. -/
lemma getPoint_one (c : CubicBezierCurve3) : c.getPoint 1 = c.v3 := by
  unfold CubicBezierCurve3.getPoint
  ext <;> simp

/-- Every branch of createCurve takes the given start as first control point. -/
lemma createCurve_v0 (startPoint endPoint : Vec3) (options : CurveOptions) :
    (createCurve startPoint endPoint options).v0 = startPoint := by
  unfold createCurve
  split <;> rfl

/-- Every branch of createCurve takes the given end as last control point. -/
lemma createCurve_v3 (startPoint endPoint : Vec3) (options : CurveOptions) :
    (createCurve startPoint endPoint options).v3 = endPoint := by
  unfold createCurve
  split <;> rfl

/-- C1: for every pair of points and every option bag (in particular for all
three curveType values architectural, smooth and sharp), the curve returned by
BezierCurveGenerator.createCurve evaluates exactly to the start point at t = 0
and to the end point at t = 1: the first and last control points are the given
endpoints and cubic Bézier evaluation returns them unchanged. -/
theorem createCurve_sample_endpoints (startPoint endPoint : Vec3) (options : CurveOptions) :
    (createCurve startPoint endPoint options).getPoint 0 = startPoint ∧
    (createCurve startPoint endPoint options).getPoint 1 = endPoint := by
  refine ⟨?_, ?_⟩
  · rw [getPoint_zero, createCurve_v0]
  · rw [getPoint_one, createCurve_v3]

/-- C2: for every platform element with positive width and depth and every
target, the resolved connection point has its dominant horizontal coordinate
(by comparing |dx| with |dz|) equal to the center plus or minus the matching
half extent, the other horizontal coordinate clamped into that face's bounds,
the y coordinate equal to the top of the box plus the 0.1 clearance, and it is
never at the platform's horizontal center (so never the top center). -/
theorem platform_connection_point_on_side_face (platform targetElement : Element)
    (htype : platform.type = "platform") (hw : 0 < platform.width)
    (hd : 0 < platform.depth) :
    let p := getConnectionPoint platform targetElement
    let pos := platform.position
    let dx := targetElement.position.x - pos.x
    let dz := targetElement.position.z - pos.z
    p.y = pos.y + platform.height / 2 + 0.1 ∧
    ((|dx| > |dz| ∧
        (p.x = pos.x + platform.width / 2 ∨ p.x = pos.x - platform.width / 2) ∧
        pos.z - platform.depth / 2 ≤ p.z ∧ p.z ≤ pos.z + platform.depth / 2) ∨
      (|dx| ≤ |dz| ∧
        (p.z = pos.z + platform.depth / 2 ∨ p.z = pos.z - platform.depth / 2) ∧
        pos.x - platform.width / 2 ≤ p.x ∧ p.x ≤ pos.x + platform.width / 2)) ∧
    ¬(p.x = pos.x ∧ p.z = pos.z) := by
  intro p pos dx dz
  have hp0 : p = getPlatformConnectionPoint platform targetElement := by
    show getConnectionPoint platform targetElement = _
    simp only [getConnectionPoint, htype]
  have hpx : p.x = (if |dx| > |dz| then
      pos.x + (if dx > 0 then platform.width / 2 else -(platform.width / 2))
      else pos.x + max (-(platform.width / 2)) (min (platform.width / 2) dx)) := by
    rw [hp0]; rfl
  have hpy : p.y = pos.y + platform.height / 2 + 0.1 := by
    rw [hp0]; rfl
  have hpz : p.z = (if |dx| > |dz| then
      pos.z + max (-(platform.depth / 2)) (min (platform.depth / 2) dz)
      else pos.z + (if dz > 0 then platform.depth / 2 else -(platform.depth / 2))) := by
    rw [hp0]; rfl
  refine ⟨hpy, ?_, ?_⟩
  · by_cases hxz : |dx| > |dz|
    · left
      refine ⟨hxz, ?_, ?_, ?_⟩
      · rw [hpx, if_pos hxz]
        by_cases hdx : dx > 0
        · left; rw [if_pos hdx]
        · right; rw [if_neg hdx]; ring
      · rw [hpz, if_pos hxz]
        have := le_max_left (-(platform.depth / 2)) (min (platform.depth / 2) dz)
        linarith
      · rw [hpz, if_pos hxz]
        have h1 : min (platform.depth / 2) dz ≤ platform.depth / 2 := min_le_left _ _
        have h2 : max (-(platform.depth / 2)) (min (platform.depth / 2) dz) ≤
            platform.depth / 2 := max_le (by linarith) h1
        linarith
    · right
      refine ⟨not_lt.mp hxz, ?_, ?_, ?_⟩
      · rw [hpz, if_neg hxz]
        by_cases hdz : dz > 0
        · left; rw [if_pos hdz]
        · right; rw [if_neg hdz]; ring
      · rw [hpx, if_neg hxz]
        have := le_max_left (-(platform.width / 2)) (min (platform.width / 2) dx)
        linarith
      · rw [hpx, if_neg hxz]
        have h1 : min (platform.width / 2) dx ≤ platform.width / 2 := min_le_left _ _
        have h2 : max (-(platform.width / 2)) (min (platform.width / 2) dx) ≤
            platform.width / 2 := max_le (by linarith) h1
        linarith
  · rintro ⟨h1, h2⟩
    rw [hpx] at h1
    rw [hpz] at h2
    by_cases hxz : |dx| > |dz|
    · rw [if_pos hxz] at h1
      by_cases hdx : dx > 0
      · rw [if_pos hdx] at h1; linarith
      · rw [if_neg hdx] at h1; linarith
    · rw [if_neg hxz] at h2
      by_cases hdz : dz > 0
      · rw [if_pos hdz] at h2; linarith
      · rw [if_neg hdz] at h2; linarith

/-- A concrete platform and target for the C2 witness. -/
def platW2 : Element := ⟨"platform", false, false, ⟨0, 0, 0⟩, 2, 1, 2, ⟨0, 0, 0⟩, ⟨0, 0, 0⟩⟩

/-- Target east of platW2. -/
def tgtW2 : Element := ⟨"node", false, false, ⟨5, 0, 1⟩, 0, 0, 0, ⟨0, 0, 0⟩, ⟨0, 0, 0⟩⟩

/-- C2 witness: the side-face property instantiated on a concrete platform. -/
theorem platform_connection_point_on_side_face_witness :
    let p := getConnectionPoint platW2 tgtW2
    let pos := platW2.position
    let dx := tgtW2.position.x - pos.x
    let dz := tgtW2.position.z - pos.z
    p.y = pos.y + platW2.height / 2 + 0.1 ∧
    ((|dx| > |dz| ∧
        (p.x = pos.x + platW2.width / 2 ∨ p.x = pos.x - platW2.width / 2) ∧
        pos.z - platW2.depth / 2 ≤ p.z ∧ p.z ≤ pos.z + platW2.depth / 2) ∨
      (|dx| ≤ |dz| ∧
        (p.z = pos.z + platW2.depth / 2 ∨ p.z = pos.z - platW2.depth / 2) ∧
        pos.x - platW2.width / 2 ≤ p.x ∧ p.x ≤ pos.x + platW2.width / 2)) ∧
    ¬(p.x = pos.x ∧ p.z = pos.z) :=
  platform_connection_point_on_side_face platW2 tgtW2 rfl (by norm_num [platW2])
    (by norm_num [platW2])

/-- C3: for a standalone component (type component, not a database cylinder,
no platform beneath it), the resolver picks the dominant axis as the largest of
|dx|, |dy|, |dz|; on that axis the returned coordinate is the center plus or
minus the exact bounding-box half extent — plus exactly when the direction to
the target is positive — and the two non-dominant coordinates equal the
element's center exactly. -/
theorem standalone_connection_point_face_center (component targetElement : Element)
    (htype : component.type = "component") (hdb : component.isDatabaseComponent = false)
    (hpl : component.hasPlataform = false) :
    let c := getConnectionPoint component targetElement
    let pos := component.position
    let dx := targetElement.position.x - pos.x
    let dy := targetElement.position.y - pos.y
    let dz := targetElement.position.z - pos.z
    let halfWidth := (component.bbMax.x - component.bbMin.x) / 2
    let halfHeight := (component.bbMax.y - component.bbMin.y) / 2
    let halfDepth := (component.bbMax.z - component.bbMin.z) / 2
    (|dx| ≥ |dy| ∧ |dx| ≥ |dz| ∧
      c.x = pos.x + (if dx > 0 then halfWidth else -halfWidth) ∧ c.y = pos.y ∧ c.z = pos.z) ∨
    (|dy| ≥ |dx| ∧ |dy| ≥ |dz| ∧
      c.y = pos.y + (if dy > 0 then halfHeight else -halfHeight) ∧ c.x = pos.x ∧ c.z = pos.z) ∨
    (|dz| ≥ |dx| ∧ |dz| ≥ |dy| ∧
      c.z = pos.z + (if dz > 0 then halfDepth else -halfDepth) ∧ c.x = pos.x ∧ c.y = pos.y) := by
  intro c pos dx dy dz halfWidth halfHeight halfDepth
  have hp0 : c = getStandaloneCubeConnectionPoint component targetElement := by
    show getConnectionPoint component targetElement = _
    simp [getConnectionPoint, htype, getComponentConnectionPoint, hdb, hpl]
  have hcEq : getStandaloneCubeConnectionPoint component targetElement =
      (if |dx| ≥ |dy| ∧ |dx| ≥ |dz| then
        (⟨pos.x + (if dx > 0 then halfWidth else -halfWidth), pos.y, pos.z⟩ : Vec3)
      else if |dy| ≥ |dx| ∧ |dy| ≥ |dz| then
        (⟨pos.x, pos.y + (if dy > 0 then halfHeight else -halfHeight), pos.z⟩ : Vec3)
      else
        (⟨pos.x, pos.y, pos.z + (if dz > 0 then halfDepth else -halfDepth)⟩ : Vec3)) := rfl
  rw [hcEq] at hp0
  by_cases h1 : |dx| ≥ |dy| ∧ |dx| ≥ |dz|
  · rw [if_pos h1] at hp0
    exact Or.inl ⟨h1.1, h1.2, by rw [hp0], by rw [hp0], by rw [hp0]⟩
  · rw [if_neg h1] at hp0
    by_cases h2 : |dy| ≥ |dx| ∧ |dy| ≥ |dz|
    · rw [if_pos h2] at hp0
      exact Or.inr (Or.inl ⟨h2.1, h2.2, by rw [hp0], by rw [hp0], by rw [hp0]⟩)
    · rw [if_neg h2] at hp0
      have hx_lt : |dx| < |dy| ∨ |dx| < |dz| := by
        rcases not_and_or.mp h1 with h | h
        · exact Or.inl (not_le.mp h)
        · exact Or.inr (not_le.mp h)
      have hy_lt : |dy| < |dx| ∨ |dy| < |dz| := by
        rcases not_and_or.mp h2 with h | h
        · exact Or.inl (not_le.mp h)
        · exact Or.inr (not_le.mp h)
      have hzx : |dx| ≤ |dz| := by
        rcases hx_lt with h | h
        · rcases hy_lt with h3 | h3 <;> linarith
        · linarith
      have hzy : |dy| ≤ |dz| := by
        rcases hy_lt with h | h
        · rcases hx_lt with h3 | h3 <;> linarith
        · linarith
      exact Or.inr (Or.inr ⟨hzx, hzy, by rw [hp0], by rw [hp0], by rw [hp0]⟩)

/-- A concrete standalone cube for the C3 witness: center at the origin,
measured bounding box [-0.75, 0.75]³. -/
def cubeW3 : Element :=
  ⟨"component", false, false, ⟨0, 0, 0⟩, 0, 0, 0, ⟨-0.75, -0.75, -0.75⟩, ⟨0.75, 0.75, 0.75⟩⟩

/-- Target east of cubeW3. -/
def tgtW3 : Element := ⟨"node", false, false, ⟨3, 1, 0⟩, 0, 0, 0, ⟨0, 0, 0⟩, ⟨0, 0, 0⟩⟩

/-- C3 witness: the face-center property instantiated on a concrete cube. -/
theorem standalone_connection_point_face_center_witness :
    let c := getConnectionPoint cubeW3 tgtW3
    let pos := cubeW3.position
    let dx := tgtW3.position.x - pos.x
    let dy := tgtW3.position.y - pos.y
    let dz := tgtW3.position.z - pos.z
    let halfWidth := (cubeW3.bbMax.x - cubeW3.bbMin.x) / 2
    let halfHeight := (cubeW3.bbMax.y - cubeW3.bbMin.y) / 2
    let halfDepth := (cubeW3.bbMax.z - cubeW3.bbMin.z) / 2
    (|dx| ≥ |dy| ∧ |dx| ≥ |dz| ∧
      c.x = pos.x + (if dx > 0 then halfWidth else -halfWidth) ∧ c.y = pos.y ∧ c.z = pos.z) ∨
    (|dy| ≥ |dx| ∧ |dy| ≥ |dz| ∧
      c.y = pos.y + (if dy > 0 then halfHeight else -halfHeight) ∧ c.x = pos.x ∧ c.z = pos.z) ∨
    (|dz| ≥ |dx| ∧ |dz| ≥ |dy| ∧
      c.z = pos.z + (if dz > 0 then halfDepth else -halfDepth) ∧ c.x = pos.x ∧ c.y = pos.y) :=
  standalone_connection_point_face_center cubeW3 tgtW3 rfl rfl rfl

/-- C4 (amended): for a database (cylinder) component, if |dy| strictly
exceeds the horizontal distance the resolved point is the top or bottom cap
center (center y ± 1.8/2); otherwise, if the horizontal distance is positive,
it is on the side surface at the center plus 0.9 times the normalized
horizontal direction toward the target; and when the horizontal distance is
zero and |dy| does not exceed it (the target coincides with the center) the
resolver returns the center unchanged, not a cap point. -/
theorem cylinder_connection_point_cases (component targetElement : Element)
    (htype : component.type = "component") (hdb : component.isDatabaseComponent = true) :
    let c := getConnectionPoint component targetElement
    let pos := component.position
    let dx := targetElement.position.x - pos.x
    let dy := targetElement.position.y - pos.y
    let dz := targetElement.position.z - pos.z
    let horizontalDistance := Real.sqrt (dx * dx + dz * dz)
    (|dy| > horizontalDistance →
      c = ⟨pos.x, pos.y + (if dy > 0 then 1.8 / 2 else -(1.8 / 2)), pos.z⟩) ∧
    (¬ |dy| > horizontalDistance → 0 < horizontalDistance →
      c = ⟨pos.x + dx / horizontalDistance * 0.9, pos.y,
           pos.z + dz / horizontalDistance * 0.9⟩) ∧
    (¬ |dy| > horizontalDistance → ¬ 0 < horizontalDistance → c = pos) := by
  intro c pos dx dy dz horizontalDistance
  have hp0 : c = getCylinderConnectionPoint component targetElement := by
    show getConnectionPoint component targetElement = _
    simp [getConnectionPoint, htype, getComponentConnectionPoint, hdb]
  have hcEq : getCylinderConnectionPoint component targetElement =
      (if |dy| > horizontalDistance then
        (⟨pos.x, pos.y + (if dy > 0 then 1.8 / 2 else -(1.8 / 2)), pos.z⟩ : Vec3)
      else if horizontalDistance > 0 then
        (⟨pos.x + dx / horizontalDistance * 0.9, pos.y,
          pos.z + dz / horizontalDistance * 0.9⟩ : Vec3)
      else pos) := rfl
  rw [hcEq] at hp0
  refine ⟨?_, ?_, ?_⟩
  · intro h
    rw [hp0, if_pos h]
  · intro h hpos
    rw [hp0, if_neg h, if_pos hpos]
  · intro h hnpos
    rw [hp0, if_neg h, if_neg hnpos]

/-- A database component whose target coincides with its own center. -/
def dbAtOrigin : Element :=
  ⟨"component", true, true, ⟨0, 0, 0⟩, 0, 0, 0, ⟨0, 0, 0⟩, ⟨0, 0, 0⟩⟩

/-- C4 counterexample: with the target exactly at the cylinder's center the
horizontal distance is zero and |dy| equals it, yet the resolver does not fall
back to a vertical cap attachment: it returns the center itself, whose y
coordinate (0) is neither cap y coordinate (0 + 1.8/2 or 0 - 1.8/2). -/
theorem cylinder_coincident_target_not_cap :
    getConnectionPoint dbAtOrigin dbAtOrigin = ⟨0, 0, 0⟩ ∧
    (0 : ℝ) ≠ 0 + 1.8 / 2 ∧ (0 : ℝ) ≠ 0 - 1.8 / 2 := by
  refine ⟨?_, by norm_num, by norm_num⟩
  have h0 : getConnectionPoint dbAtOrigin dbAtOrigin =
      getCylinderConnectionPoint dbAtOrigin dbAtOrigin := by
    simp [getConnectionPoint, dbAtOrigin, getComponentConnectionPoint]
  rw [h0]
  unfold getCylinderConnectionPoint
  norm_num [dbAtOrigin]

/-- The cylinder of the spec's end-to-end example, at (2, 0, -4). -/
def cylExample : Element :=
  ⟨"component", true, true, ⟨2, 0, -4⟩, 0, 0, 0, ⟨0, 0, 0⟩, ⟨0, 0, 0⟩⟩

/-- The target of the spec's end-to-end example, at (4, 0, -1). -/
def tgtExample : Element :=
  ⟨"node", false, false, ⟨4, 0, -1⟩, 0, 0, 0, ⟨0, 0, 0⟩, ⟨0, 0, 0⟩⟩

/-- C4 witness: the spec's example — cylinder at (2,0,-4), target (4,0,-1):
horizontal distance √13 dominates |dy| = 0, so the point is the center plus
0.9 times the normalized horizontal direction (2,3)/√13. -/
theorem cylinder_connection_point_cases_witness :
    getConnectionPoint cylExample tgtExample =
      ⟨2 + 2 / Real.sqrt 13 * 0.9, 0, -4 + 3 / Real.sqrt 13 * 0.9⟩ := by
  have h := (cylinder_connection_point_cases cylExample tgtExample rfl rfl).2.1
  have h13 : ((4 : ℝ) - 2) * (4 - 2) + (-1 - -4) * (-1 - -4) = 13 := by norm_num
  have hsq : (0 : ℝ) < Real.sqrt 13 := Real.sqrt_pos.mpr (by norm_num)
  simp only [cylExample, tgtExample] at h
  rw [h13] at h
  have h2 := h (by
    rw [show |(0 : ℝ) - 0| = 0 by norm_num]
    exact not_lt.mpr (Real.sqrt_nonneg 13)) hsq
  simp only [cylExample, tgtExample]
  rw [h2]
  norm_num

/-- Options with verticalOffset 1 and the architectural curve type. -/
def optsApexOne : CurveOptions := ⟨1.2, 1, 0.2, "architectural", false⟩

/-- C5 counterexample: for start (0,0,0), end (1,0,0) and verticalOffset 1,
max(verticalOffset, 0.3·|Δy|) = 1 but every point of the architectural curve
has y = 2.1·t·(1−t) ≤ 0.525, so the maximum y attained by the curve is not at
least max(verticalOffset, 0.3·|Δy|) above the taller endpoint (which has
y = 0). -/
theorem architectural_apex_counterexample :
    ¬ ∃ t : ℝ, 0 ≤ t ∧ t ≤ 1 ∧
      max (0 : ℝ) 0 + max optsApexOne.verticalOffset (|(0 : ℝ) - 0| * 0.3) ≤
        ((createArchitecturalCurve ⟨0, 0, 0⟩ ⟨1, 0, 0⟩ optsApexOne).getPoint t).y := by
  rintro ⟨t, ht0, ht1, hle⟩
  have hy : ((createArchitecturalCurve ⟨0, 0, 0⟩ ⟨1, 0, 0⟩ optsApexOne).getPoint t).y =
      3 * (1 - t) ^ 2 * t * 0.7 + 3 * (1 - t) * t ^ 2 * 0.7 := by
    show (1 - t) ^ 3 * (0 : ℝ) + 3 * (1 - t) ^ 2 * t * (0 + max (1 : ℝ) (|(0 : ℝ) - 0| * 0.3) * 0.7) +
        3 * (1 - t) * t ^ 2 * (0 + max (1 : ℝ) (|(0 : ℝ) - 0| * 0.3) * 0.7) + t ^ 3 * 0 = _
    norm_num
  rw [hy] at hle
  have hmax : max (0 : ℝ) 0 + max optsApexOne.verticalOffset (|(0 : ℝ) - 0| * 0.3) = 1 := by
    norm_num [optsApexOne]
  rw [hmax] at hle
  nlinarith [sq_nonneg (t - 1 / 2), sq_nonneg t, sq_nonneg (1 - t)]

/-- C5 (amended): the architectural curve's construction midpoint sits
max(verticalOffset, 0.3·|Δy|) above the taller endpoint; the control points are
placed 60% of the way from each endpoint toward the horizontal midpoint and at
70% of that height above their respective endpoints; the curve attains
y = (start.y + end.y)/2 + 0.525·max(verticalOffset, 0.3·|Δy|) at t = 1/2 and
the endpoint heights at t = 0 and t = 1 — but its maximum y can stay strictly
below max(verticalOffset, 0.3·|Δy|) above the taller endpoint. -/
theorem architectural_curve_construction (startPoint endPoint : Vec3)
    (options : CurveOptions) :
    let curveHeight := max options.verticalOffset (|endPoint.y - startPoint.y| * 0.3)
    let c := createArchitecturalCurve startPoint endPoint options
    c.v1 = ⟨startPoint.x + ((startPoint.x + endPoint.x) / 2 - startPoint.x) * 0.6,
            startPoint.y + curveHeight * 0.7,
            startPoint.z + ((startPoint.z + endPoint.z) / 2 - startPoint.z) * 0.6⟩ ∧
    c.v2 = ⟨endPoint.x + ((startPoint.x + endPoint.x) / 2 - endPoint.x) * 0.6,
            endPoint.y + curveHeight * 0.7,
            endPoint.z + ((startPoint.z + endPoint.z) / 2 - endPoint.z) * 0.6⟩ ∧
    (c.getPoint (1 / 2)).y = (startPoint.y + endPoint.y) / 2 + 0.525 * curveHeight ∧
    (c.getPoint 0).y = startPoint.y ∧ (c.getPoint 1).y = endPoint.y := by
  intro curveHeight c
  refine ⟨rfl, rfl, ?_, ?_, ?_⟩
  · show (1 - (1 / 2 : ℝ)) ^ 3 * startPoint.y +
        3 * (1 - (1 / 2 : ℝ)) ^ 2 * (1 / 2) * (startPoint.y + curveHeight * 0.7) +
        3 * (1 - (1 / 2 : ℝ)) * (1 / 2) ^ 2 * (endPoint.y + curveHeight * 0.7) +
        (1 / 2 : ℝ) ^ 3 * endPoint.y = _
    ring
  · rw [getPoint_zero]; rfl
  · rw [getPoint_one]; rfl

/-- Lower bound for a cubic Bernstein combination: if all four control values
are at least m and t ∈ [0,1], the combination is at least m. -/
lemma bernstein_lower_bound (m y0 y1 y2 y3 t : ℝ) (ht0 : 0 ≤ t) (ht1 : t ≤ 1)
    (h0 : m ≤ y0) (h1 : m ≤ y1) (h2 : m ≤ y2) (h3 : m ≤ y3) :
    m ≤ (1 - t) ^ 3 * y0 + 3 * (1 - t) ^ 2 * t * y1 + 3 * (1 - t) * t ^ 2 * y2 + t ^ 3 * y3 := by
  have hu : (0 : ℝ) ≤ 1 - t := by linarith
  have e0 : 0 ≤ (1 - t) ^ 3 * (y0 - m) := mul_nonneg (by positivity) (by linarith)
  have e1 : 0 ≤ 3 * (1 - t) ^ 2 * t * (y1 - m) :=
    mul_nonneg (by positivity) (by linarith)
  have e2 : 0 ≤ 3 * (1 - t) * t ^ 2 * (y2 - m) :=
    mul_nonneg (by positivity) (by linarith)
  have e3 : 0 ≤ t ^ 3 * (y3 - m) := mul_nonneg (by positivity) (by linarith)
  have key : (1 - t) ^ 3 * y0 + 3 * (1 - t) ^ 2 * t * y1 + 3 * (1 - t) * t ^ 2 * y2 +
      t ^ 3 * y3 - m =
      (1 - t) ^ 3 * (y0 - m) + 3 * (1 - t) ^ 2 * t * (y1 - m) +
      3 * (1 - t) * t ^ 2 * (y2 - m) + t ^ 3 * (y3 - m) := by ring
  linarith

/-- The y coordinate of a Bézier sample, written out. -/
lemma getPoint_y (c : CubicBezierCurve3) (t : ℝ) :
    (c.getPoint t).y = (1 - t) ^ 3 * c.v0.y + 3 * (1 - t) ^ 2 * t * c.v1.y +
      3 * (1 - t) * t ^ 2 * c.v2.y + t ^ 3 * c.v3.y := rfl

/-- C6: for every start, end, every curve type (hence all three named styles)
with a non-negative verticalOffset, and every t ∈ [0,1], the sampled point's y
is at least min(start.y, end.y): the connector never dips below the lower
endpoint (tolerance 0). -/
theorem curve_never_below_lower_endpoint (startPoint endPoint : Vec3)
    (options : CurveOptions) (hvo : 0 ≤ options.verticalOffset)
    (t : ℝ) (ht0 : 0 ≤ t) (ht1 : t ≤ 1) :
    min startPoint.y endPoint.y ≤ ((createCurve startPoint endPoint options).getPoint t).y := by
  have hm1 : min startPoint.y endPoint.y ≤ startPoint.y := min_le_left _ _
  have hm2 : min startPoint.y endPoint.y ≤ endPoint.y := min_le_right _ _
  rw [getPoint_y]
  unfold createCurve
  split
  · -- smooth
    show min startPoint.y endPoint.y ≤
      (1 - t) ^ 3 * (createSmoothCurve startPoint endPoint options).v0.y + _ + _ + _
    have hv0 : (createSmoothCurve startPoint endPoint options).v0.y = startPoint.y := rfl
    have hv1 : (createSmoothCurve startPoint endPoint options).v1.y =
        startPoint.y + options.verticalOffset := rfl
    have hv2 : (createSmoothCurve startPoint endPoint options).v2.y =
        endPoint.y + options.verticalOffset := rfl
    have hv3 : (createSmoothCurve startPoint endPoint options).v3.y = endPoint.y := rfl
    rw [hv0, hv1, hv2, hv3]
    exact bernstein_lower_bound _ _ _ _ _ t ht0 ht1 hm1 (by linarith) (by linarith) hm2
  · -- sharp
    show min startPoint.y endPoint.y ≤
      (1 - t) ^ 3 * (createSharpCurve startPoint endPoint options).v0.y + _ + _ + _
    have hv1 : (createSharpCurve startPoint endPoint options).v1.y =
        startPoint.y + options.verticalOffset := rfl
    have hv2 : (createSharpCurve startPoint endPoint options).v2.y =
        endPoint.y + options.verticalOffset := rfl
    rw [show (createSharpCurve startPoint endPoint options).v0.y = startPoint.y from rfl,
      hv1, hv2,
      show (createSharpCurve startPoint endPoint options).v3.y = endPoint.y from rfl]
    exact bernstein_lower_bound _ _ _ _ _ t ht0 ht1 hm1 (by linarith) (by linarith) hm2
  · -- architectural (default)
    have hch : 0 ≤ max options.verticalOffset (|endPoint.y - startPoint.y| * 0.3) :=
      le_trans hvo (le_max_left _ _)
    show min startPoint.y endPoint.y ≤
      (1 - t) ^ 3 * (createArchitecturalCurve startPoint endPoint options).v0.y + _ + _ + _
    have hv1 : (createArchitecturalCurve startPoint endPoint options).v1.y =
        startPoint.y + max options.verticalOffset (|endPoint.y - startPoint.y| * 0.3) * 0.7 :=
      rfl
    have hv2 : (createArchitecturalCurve startPoint endPoint options).v2.y =
        endPoint.y + max options.verticalOffset (|endPoint.y - startPoint.y| * 0.3) * 0.7 :=
      rfl
    rw [show (createArchitecturalCurve startPoint endPoint options).v0.y = startPoint.y
        from rfl, hv1, hv2,
      show (createArchitecturalCurve startPoint endPoint options).v3.y = endPoint.y from rfl]
    exact bernstein_lower_bound _ _ _ _ _ t ht0 ht1 hm1 (by nlinarith) (by nlinarith) hm2

/-- Options for the C6 witness: smooth style, verticalOffset 0.5. -/
def optsSmoothW : CurveOptions := ⟨1.5, 0.5, 0.3, "smooth", false⟩

/-- C6 witness: a concrete smooth curve sampled at t = 1/2 stays at or above
the lower endpoint's height. -/
theorem curve_never_below_lower_endpoint_witness :
    min (0 : ℝ) 2 ≤
      ((createCurve ⟨0, 0, 0⟩ ⟨1, 2, 0⟩ optsSmoothW).getPoint (1 / 2)).y :=
  curve_never_below_lower_endpoint ⟨0, 0, 0⟩ ⟨1, 2, 0⟩ optsSmoothW
    (by norm_num [optsSmoothW]) (1 / 2) (by norm_num) (by norm_num)

/-- A degenerate unit curve used by concrete manager states. -/
def curveUnit : CubicBezierCurve3 := ⟨⟨0, 0, 0⟩, ⟨0, 0, 0⟩, ⟨0, 0, 0⟩, ⟨1, 0, 0⟩⟩

/-- A manager with one particle at progress 0.995 with speed 0.01, animation
enabled. -/
def mgrWrap : ConnectionManager :=
  ⟨true, [curveUnit], [⟨"c1", curveUnit, 0.995, 0.01⟩], [], []⟩

/-- C7 counterexample: one tick of a particle with progress 0.995 and speed
0.01 resets the progress to exactly 0, while (p + 1·s) mod 1 = 0.005, so a
tick does not leave the progress at (p + N·s) mod 1. -/
theorem tick_wrap_resets_to_zero_not_mod :
    (updateAnimations mgrWrap).animationParticles.map Particle.progress = [0] ∧
    Int.fract ((0.995 : ℝ) + 1 * 0.01) = 0.005 ∧ (0 : ℝ) ≠ 0.005 := by
  refine ⟨?_, ?_, by norm_num⟩
  · have h : updateAnimations mgrWrap =
        { mgrWrap with animationParticles := mgrWrap.animationParticles.map stepParticle } := by
      unfold updateAnimations
      rw [if_pos]
      rfl
    rw [h]
    show [(stepParticle ⟨"c1", curveUnit, 0.995, 0.01⟩).progress] = [0]
    unfold stepParticle progressStep
    norm_num
  · have hfl : ⌊(0.995 : ℝ) + 1 * 0.01⌋ = 1 := by
      rw [Int.floor_eq_iff]
      norm_num
    rw [Int.fract, hfl]
    norm_num

/-- updateAnimations does not change the animationEnabled flag. -/
lemma updateAnimations_enabled (m : ConnectionManager) :
    (updateAnimations m).animationEnabled = m.animationEnabled := by
  unfold updateAnimations
  split <;> rfl

/-- C7 (amended): with animation enabled, N calls of updateAnimations set each
particle's progress to the N-fold iterate of the step that adds the speed and
resets to exactly 0 once the sum reaches 1; whenever no wrap occurs (p + N·s
still below 1, p and s non-negative) that iterate equals p + N·s. -/
theorem updateAnimations_iterated_progress (m : ConnectionManager)
    (hEnabled : m.animationEnabled = true) (N : ℕ) :
    (updateAnimations^[N] m).animationParticles =
      m.animationParticles.map
        (fun p => { p with progress := (progressStep p.speed)^[N] p.progress }) ∧
    ∀ p s : ℝ, 0 ≤ p → 0 ≤ s → p + N * s < 1 → (progressStep s)^[N] p = p + N * s := by
  constructor
  · induction N generalizing m with
    | zero =>
      simp only [Function.iterate_zero, id_eq]
      have hfun : (fun p : Particle => { p with progress := p.progress }) = id := rfl
      rw [hfun, List.map_id]
    | succ n ih =>
      rw [Function.iterate_succ_apply]
      have hm1 : updateAnimations m =
          { m with animationParticles := m.animationParticles.map stepParticle } := by
        unfold updateAnimations
        rw [if_pos (by rw [hEnabled])]
      have hen : (updateAnimations m).animationEnabled = true := by
        rw [updateAnimations_enabled, hEnabled]
      rw [ih (updateAnimations m) hen, hm1, List.map_map]
      rfl
  · induction N with
    | zero => intro p s hp hs h; simp
    | succ n ih =>
      intro p s hp hs h
      have hns : (0 : ℝ) ≤ n * s := by positivity
      have hcast : ((n + 1 : ℕ) : ℝ) = (n : ℝ) + 1 := by push_cast; ring
      rw [hcast] at h
      have hstep : progressStep s p = p + s := by
        unfold progressStep
        rw [if_neg]
        push_neg
        nlinarith
      rw [Function.iterate_succ_apply, hstep, hcast]
      rw [ih (p + s) s (by linarith) hs (by nlinarith)]
      ring

/-- A manager with one particle at progress 0.1 with speed 0.2, animation
enabled. -/
def mgrIter : ConnectionManager := ⟨true, [], [⟨"w", curveUnit, 0.1, 0.2⟩], [], []⟩

/-- C7 witness: two ticks advance a particle from progress 0.1 with speed 0.2
to exactly 0.1 + 2·0.2 = 0.5 (no wrap occurs). -/
theorem updateAnimations_iterated_progress_witness :
    (updateAnimations^[2] mgrIter).animationParticles.map Particle.progress = [(0.5 : ℝ)] := by
  have h := updateAnimations_iterated_progress mgrIter rfl 2
  have h2 := h.2 0.1 0.2 (by norm_num) (by norm_num) (by push_cast; norm_num)
  rw [h.1]
  show [(progressStep (0.2 : ℝ))^[2] 0.1] = [(0.5 : ℝ)]
  rw [h2]
  push_cast
  norm_num

/-- A platform with an exactly tied target direction (|dx| = |dz|). -/
def platTie : Element := ⟨"platform", false, false, ⟨0, 0, 0⟩, 2, 1, 2, ⟨0, 0, 0⟩, ⟨0, 0, 0⟩⟩

/-- A target at equal horizontal offsets (0.5, 0, 0.5) from platTie. -/
def tgtTie : Element := ⟨"node", false, false, ⟨0.5, 0, 0.5⟩, 0, 0, 0, ⟨0, 0, 0⟩, ⟨0, 0, 0⟩⟩

/-- C8 counterexample: with |dx| = |dz| = 0.5 the platform resolver does not
prefer the X axis: the resolved x coordinate is the clamped 0.5, not one of
the X faces 0 ± 2/2, so the X-over-Z priority claimed for ties fails for
platforms (the Z face is chosen instead). -/
theorem platform_tie_not_x_face :
    |(0.5 : ℝ) - 0| = |(0.5 : ℝ) - 0| ∧
    (getConnectionPoint platTie tgtTie).x = 0.5 ∧
    ¬((0.5 : ℝ) = 0 + 2 / 2 ∨ (0.5 : ℝ) = 0 - 2 / 2) := by
  refine ⟨rfl, ?_, by norm_num⟩
  have h0 : getConnectionPoint platTie tgtTie = getPlatformConnectionPoint platTie tgtTie := by
    simp [getConnectionPoint, platTie]
  rw [h0]
  have hx : (getPlatformConnectionPoint platTie tgtTie).x =
      (if |(0.5 : ℝ) - 0| > |(0.5 : ℝ) - 0| then
        (0 : ℝ) + (if (0.5 : ℝ) - 0 > 0 then 2 / 2 else -(2 / 2))
      else (0 : ℝ) + max (-(2 / 2)) (min (2 / 2) ((0.5 : ℝ) - 0))) := rfl
  rw [hx, if_neg (lt_irrefl _)]
  rw [show min ((2 : ℝ) / 2) ((0.5 : ℝ) - 0) = 0.5 by norm_num [min_def]]
  rw [show max (-((2 : ℝ) / 2)) (0.5 : ℝ) = 0.5 by norm_num [max_def]]
  norm_num

/-- C8 (amended): on exact ties both component resolvers (platform-resting and
standalone) prefer the axes in the order X over Y over Z, but the platform
resolver prefers the Z face whenever |dx| = |dz|. -/
theorem tie_break_axis_priority (element targetElement : Element) :
    let pos := element.position
    let dx := targetElement.position.x - pos.x
    let dy := targetElement.position.y - pos.y
    let dz := targetElement.position.z - pos.z
    (|dx| = |dz| →
      (getPlatformConnectionPoint element targetElement).z =
        pos.z + (if dz > 0 then element.depth / 2 else -(element.depth / 2))) ∧
    (element.isDatabaseComponent = false → element.hasPlataform = true →
      |dx| = |dy| → |dx| ≥ |dz| →
      getComponentConnectionPoint element targetElement =
        ⟨pos.x + (if dx > 0 then 1.5 / 2 else -(1.5 / 2)), pos.y, pos.z⟩) ∧
    (element.isDatabaseComponent = false → element.hasPlataform = true →
      |dy| = |dz| → ¬ |dx| ≥ |dy| →
      getComponentConnectionPoint element targetElement =
        ⟨pos.x, pos.y + (if dy > 0 then 1.5 / 2 else -(1.5 / 2)), pos.z⟩) ∧
    (|dx| = |dy| → |dx| ≥ |dz| →
      getStandaloneCubeConnectionPoint element targetElement =
        ⟨pos.x + (if dx > 0 then (element.bbMax.x - element.bbMin.x) / 2
                  else -((element.bbMax.x - element.bbMin.x) / 2)), pos.y, pos.z⟩) ∧
    (|dy| = |dz| → ¬ |dx| ≥ |dy| →
      getStandaloneCubeConnectionPoint element targetElement =
        ⟨pos.x, pos.y + (if dy > 0 then (element.bbMax.y - element.bbMin.y) / 2
                  else -((element.bbMax.y - element.bbMin.y) / 2)), pos.z⟩) := by
  intro pos dx dy dz
  refine ⟨?_, ?_, ?_, ?_, ?_⟩
  · intro hxz
    have hpz : (getPlatformConnectionPoint element targetElement).z =
        (if |dx| > |dz| then
          pos.z + max (-(element.depth / 2)) (min (element.depth / 2) dz)
        else pos.z + (if dz > 0 then element.depth / 2 else -(element.depth / 2))) := rfl
    rw [hpz, if_neg (by rw [hxz]; exact lt_irrefl _)]
  · intro hdb hpl hxy hxz
    have hcEq : getComponentConnectionPoint element targetElement =
        (if |dx| ≥ |dy| ∧ |dx| ≥ |dz| then
          (⟨pos.x + (if dx > 0 then 1.5 / 2 else -(1.5 / 2)), pos.y, pos.z⟩ : Vec3)
        else if |dy| ≥ |dx| ∧ |dy| ≥ |dz| then
          (⟨pos.x, pos.y + (if dy > 0 then 1.5 / 2 else -(1.5 / 2)), pos.z⟩ : Vec3)
        else
          (⟨pos.x, pos.y, pos.z + (if dz > 0 then 1.5 / 2 else -(1.5 / 2))⟩ : Vec3)) := by
      unfold getComponentConnectionPoint
      rw [hdb, hpl]
      rw [if_neg (by simp), if_neg (by simp)]
    rw [hcEq, if_pos ⟨le_of_eq hxy.symm, hxz⟩]
  · intro hdb hpl hyz hxy
    have hcEq : getComponentConnectionPoint element targetElement =
        (if |dx| ≥ |dy| ∧ |dx| ≥ |dz| then
          (⟨pos.x + (if dx > 0 then 1.5 / 2 else -(1.5 / 2)), pos.y, pos.z⟩ : Vec3)
        else if |dy| ≥ |dx| ∧ |dy| ≥ |dz| then
          (⟨pos.x, pos.y + (if dy > 0 then 1.5 / 2 else -(1.5 / 2)), pos.z⟩ : Vec3)
        else
          (⟨pos.x, pos.y, pos.z + (if dz > 0 then 1.5 / 2 else -(1.5 / 2))⟩ : Vec3)) := by
      unfold getComponentConnectionPoint
      rw [hdb, hpl]
      rw [if_neg (by simp), if_neg (by simp)]
    rw [hcEq, if_neg (fun hc => hxy hc.1),
      if_pos ⟨le_of_lt (not_le.mp hxy), le_of_eq hyz.symm⟩]
  · intro hxy hxz
    have hsEq : getStandaloneCubeConnectionPoint element targetElement =
        (if |dx| ≥ |dy| ∧ |dx| ≥ |dz| then
          (⟨pos.x + (if dx > 0 then (element.bbMax.x - element.bbMin.x) / 2
              else -((element.bbMax.x - element.bbMin.x) / 2)), pos.y, pos.z⟩ : Vec3)
        else if |dy| ≥ |dx| ∧ |dy| ≥ |dz| then
          (⟨pos.x, pos.y + (if dy > 0 then (element.bbMax.y - element.bbMin.y) / 2
              else -((element.bbMax.y - element.bbMin.y) / 2)), pos.z⟩ : Vec3)
        else
          (⟨pos.x, pos.y, pos.z + (if dz > 0 then (element.bbMax.z - element.bbMin.z) / 2
              else -((element.bbMax.z - element.bbMin.z) / 2))⟩ : Vec3)) := rfl
    rw [hsEq, if_pos ⟨le_of_eq hxy.symm, hxz⟩]
  · intro hyz hxy
    have hsEq : getStandaloneCubeConnectionPoint element targetElement =
        (if |dx| ≥ |dy| ∧ |dx| ≥ |dz| then
          (⟨pos.x + (if dx > 0 then (element.bbMax.x - element.bbMin.x) / 2
              else -((element.bbMax.x - element.bbMin.x) / 2)), pos.y, pos.z⟩ : Vec3)
        else if |dy| ≥ |dx| ∧ |dy| ≥ |dz| then
          (⟨pos.x, pos.y + (if dy > 0 then (element.bbMax.y - element.bbMin.y) / 2
              else -((element.bbMax.y - element.bbMin.y) / 2)), pos.z⟩ : Vec3)
        else
          (⟨pos.x, pos.y, pos.z + (if dz > 0 then (element.bbMax.z - element.bbMin.z) / 2
              else -((element.bbMax.z - element.bbMin.z) / 2))⟩ : Vec3)) := rfl
    rw [hsEq, if_neg (fun hc => hxy hc.1),
      if_pos ⟨le_of_lt (not_le.mp hxy), le_of_eq hyz.symm⟩]

/-- A platform for the C8 witness, depth 4. -/
def platW8 : Element := ⟨"platform", false, false, ⟨0, 0, 0⟩, 6, 1, 4, ⟨0, 0, 0⟩, ⟨0, 0, 0⟩⟩

/-- A tied target (1, 0, 1) for platW8. -/
def tgtW8 : Element := ⟨"node", false, false, ⟨1, 0, 1⟩, 0, 0, 0, ⟨0, 0, 0⟩, ⟨0, 0, 0⟩⟩

/-- A standalone cube for the C8 witness: measured box [-0.75, 0.75]³. -/
def cubeW8 : Element :=
  ⟨"component", false, false, ⟨0, 0, 0⟩, 0, 0, 0, ⟨-0.75, -0.75, -0.75⟩, ⟨0.75, 0.75, 0.75⟩⟩

/-- A target tied between X and Y (2, 2, 0) for cubeW8. -/
def tgtW8b : Element := ⟨"node", false, false, ⟨2, 2, 0⟩, 0, 0, 0, ⟨0, 0, 0⟩, ⟨0, 0, 0⟩⟩

/-- C8 witness: on a concrete |dx| = |dz| tie the platform resolver lands on
the Z face (z = 0 + 4/2 = 2), and on a concrete |dx| = |dy| tie the
standalone resolver picks the X face (x = 0 + 0.75). -/
theorem tie_break_axis_priority_witness :
    (getPlatformConnectionPoint platW8 tgtW8).z = 2 ∧
    getStandaloneCubeConnectionPoint cubeW8 tgtW8b = ⟨0.75, 0, 0⟩ := by
  constructor
  · have h := (tie_break_axis_priority platW8 tgtW8).1 (by norm_num [platW8, tgtW8])
    rw [h]
    norm_num [platW8, tgtW8]
  · have h := (tie_break_axis_priority cubeW8 tgtW8b).2.2.2.1
      (by norm_num [cubeW8, tgtW8b]) (by norm_num [cubeW8, tgtW8b])
    rw [h]
    norm_num [cubeW8, tgtW8b]

/-- C9: removing a connection id that is not stored anywhere in the registry
(no connection record, no particle, no tagged visual carries it) is a no-op:
the manager state is exactly as before, so nothing of the other connections is
touched (and the operation is total, hence cannot throw). -/
theorem removeConnection_unknown_id_noop (m : ConnectionManager) (connectionId : String)
    (hconn : ∀ c ∈ m.connections, c.id ≠ connectionId)
    (hpart : ∀ p ∈ m.animationParticles, p.connectionId ≠ connectionId)
    (hvis : ∀ v ∈ m.connectionGroupChildren, v.connectionId ≠ connectionId) :
    removeConnection m connectionId = m := by
  unfold removeConnection
  have h1 : m.connectionGroupChildren.filter
      (fun child => child.connectionId ≠ connectionId) = m.connectionGroupChildren :=
    List.filter_eq_self.mpr (fun a ha => by simpa using hvis a ha)
  have h2 : m.animationParticles.filter
      (fun p => p.connectionId ≠ connectionId) = m.animationParticles :=
    List.filter_eq_self.mpr (fun a ha => by simpa using hpart a ha)
  have h3 : m.connections.filter (fun conn => conn.id ≠ connectionId) = m.connections :=
    List.filter_eq_self.mpr (fun a ha => by simpa using hconn a ha)
  rw [h1, h2, h3]

/-- An element used as endpoint in concrete manager scenarios. -/
def nodeAt (p : Vec3) : Element := ⟨"node", false, false, p, 0, 0, 0, p, p⟩

/-- Sharp-style options with verticalOffset 0 for concrete scenarios. -/
def optsSharp : CurveOptions := ⟨1.2, 0, 0.2, "sharp", false⟩

/-- A one-connection manager state for the C9 witness. -/
def mgrOne : ConnectionManager :=
  ⟨false, [curveUnit], [],
   [⟨"a", nodeAt ⟨0, 0, 0⟩, nodeAt ⟨1, 0, 0⟩, curveUnit, optsSharp⟩], [⟨"a", "curve"⟩]⟩

/-- C9 witness: removing the unknown id b from a registry holding only
connection a leaves the state unchanged. -/
theorem removeConnection_unknown_id_noop_witness :
    removeConnection mgrOne "b" = mgrOne :=
  removeConnection_unknown_id_noop mgrOne "b" (by simp [mgrOne]) (by simp [mgrOne])
    (by simp [mgrOne])

/-- applyOps grows curves by exactly the number of adds in the sequence. -/
lemma applyOps_curves_length (ops : List ManagerOp) :
    ∀ m : ConnectionManager, (applyOps m ops).curves.length = m.curves.length + countAdds ops := by
  induction ops with
  | nil => intro m; rfl
  | cons op rest ih =>
    intro m
    cases op with
    | addOp f t o i r1 r2 =>
      show (applyOps (addConnection m f t o i r1 r2) rest).curves.length = _
      rw [ih]
      show (m.curves ++ [createCurve (getConnectionPoint f t) (getConnectionPoint t f) o]).length
          + countAdds rest = _
      rw [List.length_append]
      show m.curves.length + 1 + countAdds rest = m.curves.length + (countAdds rest + 1)
      ring
    | removeOp i =>
      show (applyOps (removeConnection m i) rest).curves.length = _
      rw [ih]
      rfl

/-- The empty starting manager (animation disabled). -/
def mgr0 : ConnectionManager := ⟨false, [], [], [], []⟩

/-- The connection point of a node element is its position. -/
lemma getConnectionPoint_node (p : Vec3) (t : Element) : getConnectionPoint (nodeAt p) t = p :=
  rfl

/-- The position of a nodeAt element. -/
lemma nodeAt_position (p : Vec3) : (nodeAt p).position = p := rfl

/-- The curve built for the first scenario connection a (nodes (0,0,0)-(1,0,0)). -/
def curveA10 : CubicBezierCurve3 :=
  createCurve (nodeAt ⟨0, 0, 0⟩).position (nodeAt ⟨1, 0, 0⟩).position optsSharp

/-- The curve built for the second scenario connection b (nodes (0,0,0)-(2,0,0)). -/
def curveB10 : CubicBezierCurve3 :=
  createCurve (nodeAt ⟨0, 0, 0⟩).position (nodeAt ⟨2, 0, 0⟩).position optsSharp

/-- Scenario: add a, add b, remove a, then toggle animation on. -/
def scenarioFinal : ConnectionManager :=
  toggleAnimation
    (removeConnection
      (addConnection
        (addConnection mgr0 (nodeAt ⟨0, 0, 0⟩) (nodeAt ⟨1, 0, 0⟩) optsSharp "a" 0 0)
        (nodeAt ⟨0, 0, 0⟩) (nodeAt ⟨2, 0, 0⟩) optsSharp "b" 0 0)
      "a")
    (fun _ => (0, 0))

/-- C10: removeConnection never removes anything from curves (first conjunct);
after a clear, curves.length equals the number of addConnection calls made,
regardless of removals (second conjunct); and in the concrete add-a, add-b,
remove-a, toggle-on scenario the spawned particle carries connection b's id
but rides curve a, which differs from connection b's own curve — the
positional curves[i] ↔ connections[i] pairing used by toggleAnimation is
broken (third conjunct). -/
theorem removeConnection_leaves_curves_and_mispairs :
    (∀ (m : ConnectionManager) (cid : String), (removeConnection m cid).curves = m.curves) ∧
    (∀ (ops : List ManagerOp) (m : ConnectionManager),
      (applyOps (clear m) ops).curves.length = countAdds ops) ∧
    (scenarioFinal.animationParticles = [⟨"b", curveA10, 0, 0.008 + 0 * 0.012⟩] ∧
      scenarioFinal.connections =
        [⟨"b", nodeAt ⟨0, 0, 0⟩, nodeAt ⟨2, 0, 0⟩, curveB10, optsSharp⟩] ∧
      curveA10 ≠ curveB10) := by
  refine ⟨fun m cid => rfl, fun ops m => ?_, ?_, ?_, ?_⟩
  · rw [applyOps_curves_length]
    simp [clear]
  · show (toggleAnimation
        (removeConnection
          (addConnection
            (addConnection mgr0 (nodeAt ⟨0, 0, 0⟩) (nodeAt ⟨1, 0, 0⟩) optsSharp "a" 0 0)
            (nodeAt ⟨0, 0, 0⟩) (nodeAt ⟨2, 0, 0⟩) optsSharp "b" 0 0)
          "a")
        (fun _ => (0, 0))).animationParticles = _
    simp [toggleAnimation, removeConnection, addConnection, mgr0, curveA10,
      getConnectionPoint_node, nodeAt_position]
  · show (toggleAnimation
        (removeConnection
          (addConnection
            (addConnection mgr0 (nodeAt ⟨0, 0, 0⟩) (nodeAt ⟨1, 0, 0⟩) optsSharp "a" 0 0)
            (nodeAt ⟨0, 0, 0⟩) (nodeAt ⟨2, 0, 0⟩) optsSharp "b" 0 0)
          "a")
        (fun _ => (0, 0))).connections = _
    simp [toggleAnimation, removeConnection, addConnection, mgr0, curveB10,
      getConnectionPoint_node, nodeAt_position]
  · intro h
    have hx : curveA10.v3.x = curveB10.v3.x := by rw [h]
    have hA : curveA10.v3.x = 1 := rfl
    have hB : curveB10.v3.x = 2 := rfl
    rw [hA, hB] at hx
    norm_num at hx

end

end Diagram3d
